import Mathlib

/-
  Verification development for the FTCNN geometry preprocessing core
  (src/ftcnn/geometry/polygons.py, src/ftcnn/geospacial/mapping.py).

  The Python source is shallowly embedded: coordinates become exact
  rationals, shapely geometries become an inductive `Geometry` type,
  raising code returns `Except String`, and calls into external
  geometry libraries (shapely unary_union / coverage_union / simplify,
  the spatial predicates intersects / intersection) become explicit
  function parameters, constrained or instantiated at the documented
  values in the theorems.  GEOS primitives whose behaviour is fully
  documented and deterministic (normalize, box, bounds) are embedded
  concretely.
-/

deriving instance DecidableEq for Except

namespace FTCNN

/-- A coordinate pair (x, y), exact rationals in place of C doubles. -/
abbrev Pt := Rat × Rat

/-- A linear ring, stored the way shapely stores it: a closed coordinate
sequence whose first point is repeated at the end. -/
abbrev PRing := List Pt

/-- A shapely Polygon: one exterior ring plus interior rings (holes). -/
structure Poly where
  shell : PRing
  holes : List PRing
deriving DecidableEq

/-- A shapely geometry as dispatched on by the source: a Polygon, a
MultiPolygon, or any other geometry kind (Point, LineString, ...),
identified by its `geom_type` string. -/
inductive Geometry where
  | polygon (p : Poly)
  | multiPolygon (ps : List Poly)
  | other (kind : String)
deriving DecidableEq

/-- The shapely `geom_type` attribute. -/
def Geometry.geomType : Geometry → String
  | .polygon _ => "Polygon"
  | .multiPolygon _ => "MultiPolygon"
  | .other k => k

/-- Strict lexicographic order on coordinates (x first, then y), the
comparison GEOS uses to pick a ring's canonical start point. -/
def lexLt (p q : Pt) : Bool :=
  decide (p.1 < q.1) || (decide (p.1 = q.1) && decide (p.2 < q.2))

/-- Index of the first lexicographically minimal point (helper). -/
def minIdxAux (best : Nat) (bp : Pt) (i : Nat) : List Pt → Nat
  | [] => best
  | q :: rest => if lexLt q bp then minIdxAux i q (i + 1) rest else minIdxAux best bp (i + 1) rest

/-- Index of the first lexicographically minimal point of a list. -/
def minIdx : List Pt → Nat
  | [] => 0
  | p :: rest => minIdxAux 0 p 1 rest

/-- Consecutive cyclic pairs of a vertex list (last paired with first). -/
def cyclicPairs : List Pt → List (Pt × Pt)
  | [] => []
  | p :: rest => (p :: rest).zip (rest ++ [p])

/-- Twice the signed area of a vertex cycle (shoelace sum); positive
for counter-clockwise rings in the usual orientation convention. -/
def shoelace (l : List Pt) : Rat :=
  ((cyclicPairs l).map (fun uv => uv.1.1 * uv.2.2 - uv.2.1 * uv.1.2)).sum

/-- Drop the duplicated closing point of a stored ring, giving the open
vertex cycle. -/
def openRing (r : PRing) : List Pt :=
  if 2 ≤ r.length && decide (r.head? = r.getLast?) then r.dropLast else r

/-- Close an open vertex cycle by repeating its first point. -/
def closeRing : List Pt → PRing
  | [] => []
  | p :: rest => (p :: rest) ++ [p]

/-- GEOS ring canonicalization on the open cycle: rotate so the minimal
coordinate comes first, then orient (counter-clockwise when `wantCCW`,
clockwise otherwise), keeping the start point in place. -/
def normalizeOpenRing (wantCCW : Bool) (l : List Pt) : List Pt :=
  let i := minIdx l
  let rot := l.drop i ++ l.take i
  match rot with
  | [] => []
  | p :: rest =>
    if (decide (0 < shoelace (p :: rest))) != wantCCW then p :: rest.reverse else p :: rest

/-- GEOS ring canonicalization on a stored (closed) ring. -/
def normalizeRing (wantCCW : Bool) (r : PRing) : PRing :=
  closeRing (normalizeOpenRing wantCCW (openRing r))

/-- Boolean lexicographic comparison of points (less-or-equal). -/
def ptLe (p q : Pt) : Bool := lexLt p q || decide (p = q)

/-- Boolean lexicographic comparison of rings. -/
def ringLe : PRing → PRing → Bool
  | [], _ => true
  | _ :: _, [] => false
  | p :: ps, q :: qs => lexLt p q || (decide (p = q) && ringLe ps qs)

/-- Insertion of an element into a sorted list (helper for hole order). -/
def insSorted (le : PRing → PRing → Bool) (a : PRing) : List PRing → List PRing
  | [] => [a]
  | b :: bs => if le a b then a :: b :: bs else b :: insSorted le a bs

/-- Insertion sort used to put interior rings in canonical order. -/
def sortRings (le : PRing → PRing → Bool) : List PRing → List PRing
  | [] => []
  | a :: as => insSorted le a (sortRings le as)

/-- GEOS / shapely `normalize` on a Polygon: the shell is rotated to its
minimal coordinate and oriented clockwise, holes counter-clockwise and
put in a canonical order. -/
def normalizePoly (p : Poly) : Poly :=
  ⟨normalizeRing false p.shell, sortRings ringLe (p.holes.map (normalizeRing true))⟩

/-- shapely `normalize` on a full geometry (component-wise on multi
geometries; GEOS additionally sorts the components of a MultiPolygon,
a path no theorem below exercises). -/
def normalizeGeom : Geometry → Geometry
  | .polygon p => .polygon (normalizePoly p)
  | .multiPolygon ps => .multiPolygon (ps.map normalizePoly)
  | .other k => .other k

/-- All coordinates of a polygon (shell and holes), as read by `bounds`. -/
def polyCoords (p : Poly) : List Pt :=
  p.shell ++ p.holes.foldr (fun r acc => r ++ acc) []

/-- shapely `bounds` of a polygon: (minx, miny, maxx, maxy).  shapely
raises for an empty geometry here; no theorem exercises that path, the
empty case returns zeros. -/
def polyBounds (p : Poly) : Rat × Rat × Rat × Rat :=
  match polyCoords p with
  | [] => (0, 0, 0, 0)
  | c :: cs =>
    cs.foldl
      (fun acc q =>
        (min acc.1 q.1, min acc.2.1 q.2, max acc.2.2.1 q.1, max acc.2.2.2 q.2))
      (c.1, c.2, c.1, c.2)

/-- shapely `box(minx, miny, maxx, maxy)`: the counter-clockwise
rectangle ring starting at the bottom-right corner. -/
def shapelyBox (b : Rat × Rat × Rat × Rat) : Poly :=
  ⟨[(b.2.2.1, b.2.1), (b.2.2.1, b.2.2.2), (b.1, b.2.2.2), (b.1, b.2.1), (b.2.2.1, b.2.1)], []⟩

/-- `get_polygon_bboxes` (src/ftcnn/geometry/polygons.py, lines 94-119):
one normalized bounding box per constituent polygon; an unknown
geometry kind prints a diagnostic and yields no boxes.  The printed
diagnostics are returned as the second component. -/
def get_polygon_bboxes : Geometry → List Poly × List String
  | .polygon p => ([normalizePoly (shapelyBox (polyBounds p))], [])
  | .multiPolygon ps => (ps.map (fun g => normalizePoly (shapelyBox (polyBounds g))), [])
  | .other _ => ([], ["Unknown geometry type"])

/-- The `.geoms` attribute access: multi-part geometries expose their
parts; a single Polygon (or other single geometry) has no `.geoms` and
the access raises an AttributeError. -/
def geomsOf : Geometry → Except String (List Poly)
  | .multiPolygon ps => .ok ps
  | .polygon _ => .error ("AttributeError: Polygon object has no attribute geoms")
  | .other k => .error ("AttributeError: " ++ k ++ " object has no attribute geoms")

/-- Inner scan of the flatten loop of `get_geom_polygons`: the first
part of the coverage union that equals neither operand (`.equals` is
shapely topological equality, passed in as `peq`). -/
def firstGenuineMerge (peq : Poly → Poly → Bool) (flat cand : Poly) : List Poly → Option Poly
  | [] => none
  | g :: gs => if !peq g flat && !peq g cand then some g else firstGenuineMerge peq flat cand gs

/-- Scan of the accumulated shapes for the first one the candidate
merges with; returns the updated accumulator on a merge, `none` when
no accumulated shape merges.  `cu` is shapely `coverage_union`. -/
def tryMerge (cu : Poly → Poly → Geometry) (peq : Poly → Poly → Bool) (cand : Poly) :
    List Poly → Except String (Option (List Poly))
  | [] => .ok none
  | flat :: rest =>
    match geomsOf (cu flat cand) with
    | .error e => .error e
    | .ok gs =>
      match firstGenuineMerge peq flat cand gs with
      | some g => .ok (some (g :: rest))
      | none =>
        match tryMerge cu peq cand rest with
        | .error e => .error e
        | .ok none => .ok none
        | .ok (some rest2) => .ok (some (flat :: rest2))

/-- The greedy first-match flatten loop of `get_geom_polygons`. -/
def flattenLoop (cu : Poly → Poly → Geometry) (peq : Poly → Poly → Bool) :
    List Poly → List Poly → Except String (List Poly)
  | acc, [] => .ok acc
  | acc, c :: cs =>
    if acc.isEmpty then flattenLoop cu peq [c] cs
    else
      match tryMerge cu peq c acc with
      | .error e => .error e
      | .ok (some acc2) => flattenLoop cu peq acc2 cs
      | .ok none => flattenLoop cu peq (acc ++ [c]) cs

/-- `get_geom_polygons` (src/ftcnn/geometry/polygons.py, lines 122-174):
decompose a geometry into polygons, optionally merging parts via
shapely `coverage_union` (passed in as `cu`, with shapely `.equals`
as `peq`); an unknown geometry kind raises a ValueError. -/
def get_geom_polygons (cu : Poly → Poly → Geometry) (peq : Poly → Poly → Bool)
    (geom : Geometry) (flatten : Bool) : Except String (List Poly) :=
  match geom with
  | .polygon p => .ok [normalizePoly p]
  | .multiPolygon gs =>
    if !flatten then .ok (gs.map normalizePoly)
    else flattenLoop cu peq [] (gs.map normalizePoly)
  | .other _ => .error ("ValueError: Unknown geometry type")

/-- A rasterio affine transform, six coefficients mapping pixel (col,
row) coordinates to ground coordinates. -/
structure Affine where
  a : Rat
  b : Rat
  c : Rat
  d : Rat
  e : Rat
  f : Rat
deriving DecidableEq

/-- Apply an affine transform to a point, as `transform * (x, y)`. -/
def Affine.apply (t : Affine) (p : Pt) : Pt :=
  (t.a * p.1 + t.b * p.2 + t.c, t.d * p.1 + t.e * p.2 + t.f)

/-- Composition of affine transforms (matrix product, `t` after `s`). -/
def Affine.comp (t s : Affine) : Affine :=
  ⟨t.a * s.a + t.b * s.d, t.a * s.b + t.b * s.e, t.a * s.c + t.b * s.f + t.c,
   t.d * s.a + t.e * s.d, t.d * s.b + t.e * s.e, t.d * s.c + t.e * s.f + t.f⟩

/-- `Affine.translation(dx, dy)`. -/
def Affine.translation (dx dy : Rat) : Affine := ⟨1, 0, dx, 0, 1, dy⟩

/-- A rasterio pixel window: column/row offsets plus width and height. -/
structure Window where
  col_off : Rat
  row_off : Rat
  width : Rat
  height : Rat
deriving DecidableEq

/-- rasterio `src.window_transform(window)`: the dataset transform
composed with the translation to the window's offsets. -/
def window_transform (src : Affine) (w : Window) : Affine :=
  Affine.comp src (Affine.translation w.col_off w.row_off)

/-- `create_tile_polygon` (src/ftcnn/geometry/polygons.py, lines
184-216): the ground-space footprint of a tile window, built by
applying the window transform to the four pixel corners in order and
repeating the first corner; no normalization or simplification. -/
def create_tile_polygon (src : Affine) (tile_window : Window) : Poly :=
  let tile_transform := window_transform src tile_window
  let width := tile_window.width
  let height := tile_window.height
  ⟨[tile_transform.apply (0, 0),
    tile_transform.apply (width, 0),
    tile_transform.apply (width, height),
    tile_transform.apply (0, height),
    tile_transform.apply (0, 0)], []⟩

/-- Python `str.isdigit` restricted to the ASCII digits that the
polygon strings contain. -/
def pyIsDigit (c : Char) : Bool := c.isDigit

/-- The inward-scanning strip loop of `parse_polygon_str`.  Each pass
moves `start` up and/or `e` down, so `2 * size + 2` passes of fuel can
never run out before the loop condition fails. -/
def stripLoop (cs : List Char) : Nat → Nat → Int → Nat × Int
  | 0, s, e => (s, e)
  | fuel + 1, s, e =>
    if decide ((s : Int) < e) && decide (s < cs.length) && decide (0 ≤ e) &&
        !(pyIsDigit (cs.getD s ' ') && pyIsDigit (cs.getD e.toNat ' ')) then
      let s2 := if pyIsDigit (cs.getD s ' ') then s else s + 1
      let e2 := if pyIsDigit (cs.getD e.toNat ' ') then e else e - 1
      stripLoop cs fuel s2 e2
    else (s, e)

/-- Python `split(", ")` on a character list. -/
def splitCS : List Char → List Char → List (List Char)
  | acc, ',' :: ' ' :: rest => acc.reverse :: splitCS [] rest
  | acc, c :: rest => splitCS (c :: acc) rest
  | acc, [] => [acc.reverse]

/-- Python `replace(" 0", "")`: remove every space-zero pair, scanning
left to right without overlap. -/
def replSpaceZero : List Char → List Char
  | ' ' :: '0' :: rest => replSpaceZero rest
  | c :: rest => c :: replSpaceZero rest
  | [] => []

/-- Python `replace("(", "").replace(")", "")`. -/
def removeParens (cs : List Char) : List Char :=
  cs.filter (fun c => decide (c ≠ '(') && decide (c ≠ ')'))

/-- Python `str.split()` (whitespace split, empty fields dropped). -/
def splitWS : List Char → List Char → List (List Char)
  | acc, c :: rest =>
    if c.isWhitespace then
      if acc.isEmpty then splitWS [] rest else acc.reverse :: splitWS [] rest
    else splitWS (c :: acc) rest
  | acc, [] => if acc.isEmpty then [] else [acc.reverse]

/-- Split a character list on a single character. -/
def splitOnChar (ch : Char) : List Char → List (List Char)
  | [] => [[]]
  | c :: rest =>
    if c = ch then [] :: splitOnChar ch rest
    else
      match splitOnChar ch rest with
      | [] => [[c]]
      | g :: gs => (c :: g) :: gs

/-- Accumulate a decimal digit string into a natural number. -/
def digitsToNatAux : Nat → List Char → Option Nat
  | acc, [] => some acc
  | acc, c :: rest =>
    if c.isDigit then digitsToNatAux (acc * 10 + (c.toNat - 48)) rest else none

/-- Python `float(...)` on the simple decimal literals these polygon
strings contain: optional sign, digits, optional fractional part
(exponents and the special float spellings are rejected, a path no
input below takes). -/
def parseFloatChars (cs : List Char) : Except String Rat :=
  let signBody : Int × List Char :=
    match cs with
    | '-' :: r => (-1, r)
    | '+' :: r => (1, r)
    | r => (1, r)
  let err : Except String Rat := .error ("ValueError: could not convert string to float")
  match splitOnChar '.' signBody.2 with
  | [ip] =>
    if ip.isEmpty then err
    else
      match digitsToNatAux 0 ip with
      | some n => .ok (signBody.1 * (n : Rat))
      | none => err
  | [ip, fp] =>
    if ip.isEmpty && fp.isEmpty then err
    else
      match digitsToNatAux 0 ip, digitsToNatAux 0 fp with
      | some n, some m =>
        .ok (signBody.1 * ((n : Rat) + (m : Rat) / ((10 : Rat) ^ fp.length)))
      | _, _ => err
  | _ => err

/-- Parse one point token: `x, y = point.split()` demands exactly two
whitespace-separated fields, each parsed as a float. -/
def parsePoint (tok : List Char) : Except String Pt :=
  match splitWS [] tok with
  | [xs, ys] =>
    match parseFloatChars xs, parseFloatChars ys with
    | .ok x, .ok y => .ok (x, y)
    | .error e, _ => .error e
    | _, .error e => .error e
  | _ => .error ("ValueError: expected two fields when unpacking a point")

/-- Exception propagation: run the continuation unless the first step
raised, the sequencing of every Python statement that can raise. -/
def ebind (x : Except String α) (f : α → Except String β) : Except String β :=
  match x with
  | .error e => .error e
  | .ok a => f a

/-- Sequential mapping with exception propagation, mirroring a Python
loop that can raise. -/
def exceptMapList (f : α → Except String β) : List α → Except String (List β)
  | [] => .ok []
  | a :: l => ebind (f a) (fun b => ebind (exceptMapList f l) (fun bs => .ok (b :: bs)))

/-- `parse_polygon_str` (src/ftcnn/geometry/polygons.py, lines 219-261):
strip non-digit characters scanning inward from both ends, split on
a comma-space, strip each token of the space-zero marker and the
parentheses, and parse each token as an (x, y) float pair. -/
def parse_polygon_str (polygon_str : String) : Except String (List Pt) :=
  let cs := polygon_str.data
  let size := cs.length
  let se := stripLoop cs (2 * size + 2) 0 ((size : Int) - 1)
  let cs2 :=
    if decide (se.1 < size) && decide (0 ≤ se.2) then
      (cs.take (se.2 + 1).toNat).drop se.1
    else cs
  exceptMapList (fun tok => parsePoint (removeParens (replSpaceZero tok))) (splitCS [] cs2)

/-- The coordinate-list windowing of `normalize_polygon` (lines
296-298): `[(polygon[i], polygon[i + 1]) for i in range(len(polygon) - 1)]`,
a stride-one sliding window over the flat list. -/
def coordPairs (l : List Rat) : List Pt :=
  (List.range (l.length - 1)).map (fun i => (l.getD i 0, l.getD (i + 1) 0))

/-- The possible argument shapes of `normalize_polygon`: a Polygon, a
list of coordinate tuples, a flat list of numbers, or a string. -/
inductive NPInput where
  | poly (p : Poly)
  | listPairs (l : List Pt)
  | listNum (l : List Rat)
  | str (s : String)

/-- `shapely.normalize` applied to a plain Python list of coordinate
tuples: the argument is not a Geometry (nor an array of geometries),
so the GEOS ufunc raises a TypeError. -/
def shapelyNormalizeNonGeometry (_pts : List Pt) : Except String Poly :=
  .error ("TypeError: one of the arguments given to normalize is of incorrect type")

/-- `normalize_polygon` (src/ftcnn/geometry/polygons.py, lines 264-303).
A Polygon argument is simplified (shapely `simplify(0.002,
preserve_topology=True)`, the external GEOS simplifier passed in as
`simplify`) and normalized.  A non-Polygon argument is reduced to a
list of coordinate tuples (windowing a flat list, or parsing a string)
and then handed to `shapely.normalize`, which raises on such a list;
indexing `polygon[0]` on an empty list raises first. -/
def normalize_polygon (simplify : Poly → Poly) : NPInput → Except String Poly
  | .poly p => .ok (normalizePoly (simplify p))
  | .listPairs l =>
    match l with
    | [] => .error ("IndexError: list index out of range")
    | _ :: _ =>
      match shapelyNormalizeNonGeometry l with
      | .error e => .error e
      | .ok q => .ok (normalizePoly (simplify q))
  | .listNum l =>
    match l with
    | [] => .error ("IndexError: list index out of range")
    | _ :: _ =>
      match shapelyNormalizeNonGeometry (coordPairs l) with
      | .error e => .error e
      | .ok q => .ok (normalizePoly (simplify q))
  | .str s =>
    match parse_polygon_str s with
    | .error e => .error e
    | .ok pts =>
      match shapelyNormalizeNonGeometry pts with
      | .error e => .error e
      | .ok q => .ok (normalizePoly (simplify q))

/-- A cell value of a tabular record: string, number, geometry, or
Python None. -/
inductive Val where
  | vstr (s : String)
  | vnum (q : Rat)
  | vgeom (g : Geometry)
  | vnone
deriving DecidableEq

/-- A tabular row (pandas Series): an ordered label-to-value mapping. -/
abbrev Row := List (String × Val)

/-- First value stored under a label, `none` when the label is absent. -/
def rowGet (r : Row) (k : String) : Option Val :=
  match r with
  | [] => none
  | kv :: rest => if kv.1 = k then some kv.2 else rowGet rest k

/-- Python `row.get(key, None)`. -/
def rowGetD (r : Row) (k : String) : Val := (rowGet r k).getD .vnone

/-- Label membership, Python `key in row`. -/
def rowHasKey (r : Row) (k : String) : Bool := r.any (fun kv => decide (kv.1 = k))

/-- Python dict assignment `d[k] = v`: replace the value in place when
the key exists, append otherwise. -/
def dictInsert (m : Row) (k : String) (v : Val) : Row :=
  match m with
  | [] => [(k, v)]
  | kv :: rest => if kv.1 = k then (kv.1, v) :: rest else kv :: dictInsert rest k v

/-- pandas `Series.to_dict()`: duplicate labels collapse to one key at
its first position holding the last value. -/
def toDict (r : Row) : Row := r.foldl (fun m kv => dictInsert m kv.1 kv.2) []

/-- pandas `Series.drop(label)`: removes every entry with the label,
raising a KeyError when the label is absent. -/
def seriesDrop (r : Row) (k : String) : Except String Row :=
  if rowHasKey r k then .ok (r.filter (fun kv => decide (kv.1 ≠ k)))
  else .error ("KeyError: " ++ k ++ " not found in axis")

/-- Order-preserving deduplication (helper): keep elements not yet
seen, in order. -/
def uniqueAux {α : Type} [DecidableEq α] (seen : List α) : List α → List α
  | [] => []
  | a :: l => if a ∈ seen then uniqueAux seen l else a :: uniqueAux (a :: seen) l

/-- Order-preserving deduplication keeping first occurrences, the
semantics of pandas `unique` and `drop_duplicates`. -/
def uniqueList {α : Type} [DecidableEq α] (l : List α) : List α := uniqueAux [] l

/-- A GeoDataFrame: rows plus the name of the active geometry column
read by the `.geometry` accessor (the coordinate-reference identifier
is carried through unchanged and is not modelled). -/
structure GDF where
  rows : List Row
  activeGeom : String

/-- Read a row's active geometry value; a missing or non-geometry
value makes the geometry operations of the source raise. -/
def geomOfRow (activeCol : String) (r : Row) : Except String Geometry :=
  match rowGet r activeCol with
  | some (.vgeom g) => .ok g
  | _ => .error ("TypeError: the active geometry column is missing or not a geometry")

/-- The grouping key of a row for a list of column names; pandas
raises a KeyError on a missing column. -/
def groupKeyOf (cols : List String) (r : Row) : Except String (List Val) :=
  exceptMapList
    (fun c =>
      match rowGet r c with
      | some v => .ok v
      | none => .error ("KeyError: " ++ c)) cols

/-- pandas `groupby(cols, sort=False)`: groups keyed by the column
values, in order of first appearance, each group keeping row insertion
order.  (A single-string `by` behaves as the one-element list.) -/
def groupbyCols (cols : List String) (rows : List Row) : Except String (List (List Val × List Row)) :=
  ebind (exceptMapList (fun r => (groupKeyOf cols r).map (fun k => (k, r))) rows)
    (fun keyed =>
      .ok ((uniqueList (keyed.map Prod.fst)).map
        (fun k => (k, (keyed.filter (fun kr => decide (kr.1 = k))).map Prod.snd))))

/-- `group.iloc[i].drop(geometry_column)`: positional row lookup (an
IndexError out of bounds) followed by the label drop (a KeyError when
the label is absent). -/
def ilocDrop (g : List Row) (i : Nat) (geometry_column : String) : Except String Row :=
  match g.get? i with
  | none => .error ("IndexError: single positional indexer is out-of-bounds")
  | some rowi => seriesDrop rowi geometry_column

/-- The bbox loop of `flatten_polygons` (lines 45-48 and 52-55).  The
Python body appends one and the same dict object once per bounding box
and mutates its `bbox` entry each pass, so when the frame is built
every appended reference holds the final bounding box; the embedding
therefore emits `bboxes.length` copies of the row carrying the last
box, each paired with the geometry appended alongside it. -/
def bboxRows (base : Row) (polygon : Geometry) (bboxes : List Poly) : List (Row × Geometry) :=
  match bboxes.getLast? with
  | none => []
  | some lastB =>
    bboxes.map (fun _ => (dictInsert base ("bbox") (.vgeom (.polygon lastB)), polygon))

/-- The per-part body of the MultiPolygon branch of `flatten_polygons`
(lines 42-48), walking the union's parts with their ordinal `i`: the
source normalizes the part into a variable it never reads again (a
pure dead assignment, omitted here), takes the `i`-th group member's
attributes, and appends one row per bounding box of the whole union. -/
def flattenMultiGo (geometry_column : String) (g : List Row) (polygon : Geometry)
    (bboxes : List Poly) : List Poly → Nat → Except String (List (Row × Geometry))
  | [], _ => .ok []
  | _part :: more, i =>
    ebind (ilocDrop g i geometry_column) (fun dropped =>
      ebind (flattenMultiGo geometry_column g polygon bboxes more (i + 1)) (fun rest =>
        .ok (bboxRows (toDict dropped) polygon bboxes ++ rest)))

/-- Dispatch of `flatten_polygons` on the union's kind (lines 41-55):
a MultiPolygon union walks its parts positionally, any other union is
normalized and takes the first member's attributes. -/
def flattenGroupCore (geometry_column : String) (g : List Row) :
    Geometry → Except String (List (Row × Geometry))
  | .multiPolygon parts =>
    flattenMultiGo geometry_column g (.multiPolygon parts)
      (get_polygon_bboxes (.multiPolygon parts)).fst parts 0
  | nonMulti =>
    ebind (ilocDrop g 0 geometry_column) (fun dropped =>
      .ok (bboxRows (toDict dropped) (normalizeGeom nonMulti)
        (get_polygon_bboxes (normalizeGeom nonMulti)).fst))

/-- One group's contribution to `flatten_polygons` (lines 40-55):
union the member geometries and dispatch on the union's kind. -/
def flattenGroup (uunion : List Geometry → Geometry) (activeCol geometry_column : String)
    (g : List Row) : Except String (List (Row × Geometry)) :=
  ebind (exceptMapList (geomOfRow activeCol) g) (fun geoms =>
    flattenGroupCore geometry_column g (uunion geoms))

/-- `flatten_polygons` (src/ftcnn/geometry/polygons.py, lines 12-57).
`uunion` is shapely `unary_union` (external GEOS).  `group_by` models
the `str | list[str] | None` parameter; pandas `groupby(None)` raises
a TypeError.  The result pairs each emitted attribute dict with the
geometry appended alongside it. -/
def flatten_polygons (uunion : List Geometry → Geometry) (gdf_src : GDF)
    (geometry_column : String) (group_by : Option (List String)) :
    Except String (List (Row × Geometry)) :=
  match group_by with
  | none => .error ("TypeError: You have to supply one of by and level")
  | some cols =>
    ebind (groupbyCols cols gdf_src.rows) (fun groups =>
      ebind (exceptMapList
          (fun kg => flattenGroup uunion gdf_src.activeGeom geometry_column kg.2) groups)
        (fun chunks => .ok chunks.flatten))

/-- One item of a `preserve_fields` list: a plain column name or a
renaming dictionary `{new_name: old_name}`. -/
inductive PField where
  | fstr (s : String)
  | fdict (m : List (String × String))

/-- The `preserve_fields` parameter of `map_metadata`:
`list[str | dict] | dict | None`. -/
inductive PreserveFields where
  | pnone
  | plist (items : List PField)
  | pdict (m : List (String × String))

/-- Python dict update on a string-to-string mapping. -/
def strDictInsert (m : List (String × String)) (k v : String) : List (String × String) :=
  match m with
  | [] => [(k, v)]
  | kv :: rest => if kv.1 = k then (kv.1, v) :: rest else kv :: strDictInsert rest k v

/-- The field-map normalization of `map_metadata` (lines 52-62): fold
`preserve_fields` into one `{new_name: old_name}` dictionary. -/
def normalizeFields : PreserveFields → List (String × String)
  | .pnone => []
  | .pdict m => m.foldl (fun acc kv => strDictInsert acc kv.1 kv.2) []
  | .plist items =>
    items.foldl
      (fun acc item =>
        match item with
        | .fstr s => strDictInsert acc s s
        | .fdict d => d.foldl (fun acc2 kv => strDictInsert acc2 kv.1 kv.2) acc)
      []

/-- The passthrough loop of `map_metadata` (lines 96-101): for each
`{new_col: old_col}` pair, raise a KeyError when `old_col` is absent
from the source row, otherwise store `row.get(old_col)` under
`new_col`. -/
def addPreserved (row : Row) : Row → List (String × String) → Except String Row
  | meta, [] => .ok meta
  | meta, (newCol, oldCol) :: rest =>
    if rowHasKey row oldCol then
      addPreserved row (dictInsert meta newCol (rowGetD row oldCol)) rest
    else .error ("KeyError: Column " ++ oldCol ++ " does not exist in the source DataFrame.")

/-- The duplicate-path check of `map_metadata` (line 72) compares the
stored string `r["path"]` against the pathlib Path object `path`;
Python equality between a str and a Path is always False, so the check
never skips anything. -/
def strEqPathObject (_v : Val) (_path : String) : Bool := false

/-- The row loop of `map_metadata` (lines 66-104).  `fs` stands for the
image directory: it returns the pixel dimensions for a filename whose
path exists and `none` otherwise (rows whose path does not exist are
skipped).  Each processed row contributes its metadata dict paired
with `row.get("geometry", None)`. -/
def mapMetadataLoop (fs : String → Option (Nat × Nat)) (parse_filename : Row → String)
    (images_dir : String) (field_map : List (String × String)) :
    List Row → List (Row × Val) → Except String (List (Row × Val))
  | [], acc => .ok acc
  | row :: rest, acc =>
    let filename := parse_filename row
    let path := images_dir ++ "/" ++ filename
    match fs filename with
    | none => mapMetadataLoop fs parse_filename images_dir field_map rest acc
    | some wh =>
      if acc.any (fun r => strEqPathObject (rowGetD r.1 ("path")) path) then
        mapMetadataLoop fs parse_filename images_dir field_map rest acc
      else
        let metadata : Row :=
          [("filename", .vstr filename), ("path", .vstr path),
           ("width", .vnum (wh.1 : Rat)), ("height", .vnum (wh.2 : Rat)),
           ("bbox", rowGetD row ("bbox"))]
        ebind (addPreserved row metadata field_map) (fun meta =>
          mapMetadataLoop fs parse_filename images_dir field_map rest
            (acc ++ [(meta, rowGetD row ("geometry"))]))

/-- `map_metadata` (src/ftcnn/geospacial/mapping.py, lines 18-111):
join image dimensions onto rows via a pluggable filename parser, with
a passthrough/renaming of preserved fields that raises a KeyError when
a requested source column is absent.  The final GeoDataFrame assembly
(column selection and ordering) does not change the row contents and
is not modelled beyond the (metadata, geometry) pairs. -/
def map_metadata (fs : String → Option (Nat × Nat)) (parse_filename : Row → String)
    (images_dir : String) (gdf_src : List Row) (preserve_fields : PreserveFields) :
    Except String (List (Row × Val)) :=
  mapMetadataLoop fs parse_filename images_dir (normalizeFields preserve_fields) gdf_src []

/-- Boolean prefix test on character lists. -/
def listPref : List Char → List Char → Bool
  | [], _ => true
  | _ :: _, [] => false
  | a :: as, b :: bs => decide (a = b) && listPref as bs

/-- Python substring membership `sub in hay`. -/
def strContains (hay sub : String) : Bool :=
  (List.range (hay.data.length + 1)).any (fun i => listPref sub.data (hay.data.drop i))

/-- Python slice `s[:n]`. -/
def strTake (s : String) (n : Nat) : String := ⟨s.data.take n⟩

/-- Drop a filename's final extension, as `os.path.splitext(...)[0]`
and `pathlib` `stem` both do for the plain names used here: cut at the
last dot that is not the leading character. -/
def dropExt (s : String) : String :=
  let cs := s.data
  let dotIdxs := (List.range cs.length).filter
    (fun i => decide (0 < i) && decide (cs.getD i ' ' = '.'))
  match dotIdxs.getLast? with
  | none => s
  | some i => ⟨cs.take i⟩

/-- `compare_stem` (src/ftcnn/geospacial/mapping.py, lines 144-148):
the prefix-substring heuristic `stem[:len(name)] in name`. -/
def compare_stem (stem : String) (names : List String) : Bool :=
  names.any (fun name => strContains name (strTake stem name.data.length))

/-- A vector record as the mapper reads it: a `filename` attribute and
a geometry. -/
structure VecRecord where
  filename : String
  geom : Geometry
deriving DecidableEq

/-- A raster tile file as the mapper reads it through rasterio:
its base name, full path string, pixel dimensions and geotransform. -/
structure TileFile where
  name : String
  pathStr : String
  width : Rat
  height : Rat
  transform : Affine
deriving DecidableEq

/-- One output row of the mapper. -/
structure MapRow where
  filename : String
  path : String
  width : Rat
  height : Rat
  geom : Geometry
deriving DecidableEq

/-- The footprint the mapper builds for a tile: `create_tile_polygon`
over the full-extent window `create_window(0, 0, src.width,
src.height)`. -/
def tilePolyOf (p : TileFile) : Poly :=
  create_tile_polygon p.transform ⟨0, 0, p.width, p.height⟩

/-- The per-tile body of the mapper loop (lines 161-186): one row per
intersecting record carrying the clipped geometry, or a single row
with an empty Polygon when nothing intersects.  `intersects` and
`inter` are the external spatial predicates of the vector collection. -/
def tileRows (intersects : Geometry → Poly → Bool) (inter : Geometry → Poly → Geometry)
    (gdf : List VecRecord) (p : TileFile) : List MapRow :=
  if (gdf.filter (fun r => intersects r.geom (tilePolyOf p))).isEmpty then
    [⟨p.name, p.pathStr, p.width, p.height, .polygon ⟨[], []⟩⟩]
  else
    (gdf.filter (fun r => intersects r.geom (tilePolyOf p))).map
      (fun r => ⟨p.name, p.pathStr, p.width, p.height, inter r.geom (tilePolyOf p)⟩)

/-- Concatenated mapping, Python list building across a loop. -/
def listJoinMap (f : α → List β) : List α → List β
  | [] => []
  | a :: l => f a ++ listJoinMap f l

/-- GeoDataFrame `explode()` on one geometry: a MultiPolygon becomes
its parts, a single-part geometry stays as the one row. -/
def explodeGeom : Geometry → List Geometry
  | .multiPolygon ps => ps.map .polygon
  | g => [g]

/-- `explode()` on one output row. -/
def explodeRow (r : MapRow) : List MapRow :=
  (explodeGeom r.geom).map (fun g => { r with geom := g })

/-- `map_geometry_to_geotiffs` (src/ftcnn/geospacial/mapping.py, lines
114-192).  `files` is the external directory enumeration
(`collect_files_with_suffix`); the filename pre-filter, per-tile
intersection rows, `explode()` and `drop_duplicates()` are embedded
directly. -/
def map_geometry_to_geotiffs (intersects : Geometry → Poly → Bool)
    (inter : Geometry → Poly → Geometry) (gdf : List VecRecord) (files : List TileFile) :
    List MapRow :=
  let orig_stems := (uniqueList (gdf.map (fun r => r.filename))).map dropExt
  let image_paths := files.filter (fun p => compare_stem (dropExt p.name) orig_stems)
  uniqueList (listJoinMap explodeRow (listJoinMap (tileRows intersects inter gdf) image_paths))

/-- The unit square at the origin, a concrete test geometry. -/
def sqA : Poly := ⟨[(0, 0), (1, 0), (1, 1), (0, 1), (0, 0)], []⟩

/-- A unit square two units to the right of `sqA`, disjoint from it. -/
def sqB : Poly := ⟨[(2, 0), (3, 0), (3, 1), (2, 1), (2, 0)], []⟩

/-- A source row holding `sqA` with group key `g` and id 1. -/
def rowSqA : Row := [("grp", .vstr ("g")), ("id", .vnum 1), ("geometry", .vgeom (.polygon sqA))]

/-- A source row holding `sqB` with group key `g` and id 2. -/
def rowSqB : Row := [("grp", .vstr ("g")), ("id", .vnum 2), ("geometry", .vgeom (.polygon sqB))]

/-- The two-row GeoDataFrame of the disjoint-squares scenario. -/
def gdfTwoSquares : GDF := ⟨[rowSqA, rowSqB], "geometry"⟩

/-- shapely `unary_union` as the flattening pipeline observes it on
the disjoint-squares group: the union of two disjoint polygons is the
MultiPolygon of the two, the documented GEOS value, supplied here as
the external-union parameter. -/
def uunionTwoSquares : List Geometry → Geometry := fun _ => .multiPolygon [sqA, sqB]

/-- The normalized bounding box of `sqB`, the last box of the union's
bbox list. -/
def bboxOfSqB : Poly := ⟨[(2, 0), (2, 1), (3, 1), (3, 0), (2, 0)], []⟩

/-- One output row of the disjoint-squares flattening run: the member
attributes with the given id, the second part's bounding box, and the
whole two-part union as geometry. -/
def outRowTwoSquares (idv : Rat) : Row × Geometry :=
  ([("grp", .vstr ("g")), ("id", .vnum idv), ("bbox", .vgeom (.polygon bboxOfSqB))],
   .multiPolygon [sqA, sqB])

/-- The full output of the disjoint-squares flattening run. -/
def flattenTwoSquaresOut : List (Row × Geometry) :=
  [outRowTwoSquares 1, outRowTwoSquares 1, outRowTwoSquares 2, outRowTwoSquares 2]

/-- A one-row group whose single member holds the two-part
MultiPolygon of the disjoint squares. -/
def rowMultiSq : Row := [("grp", .vstr ("g")), ("geometry", .vgeom (.multiPolygon [sqA, sqB]))]

/-- The one-row GeoDataFrame of that group. -/
def gdfMultiSq : GDF := ⟨[rowMultiSq], "geometry"⟩

/-- shapely `unary_union` as observed on that group: the union of the
two-part MultiPolygon of disjoint squares is that MultiPolygon, the
documented GEOS value, supplied as the external-union parameter. -/
def uunionMultiSq : List Geometry → Geometry := fun _ => .multiPolygon [sqA, sqB]

/-- A raster tile whose name matches the vector record below, with the
identity geotransform. -/
def tileOfSqA : TileFile := ⟨("a.tif"), ("imgs/a.tif"), 10, 10, ⟨1, 0, 0, 0, 1, 0⟩⟩

/-- A vector record whose filename matches `tileOfSqA`. -/
def recOfSqA : VecRecord := ⟨("a.tif"), .polygon sqA⟩

/-- A spatial predicate reporting no intersections. -/
def neverIntersects : Geometry → Poly → Bool := fun _ _ => false

/-- A clipping function standing in for shapely `intersection`. -/
def clipIdentity : Geometry → Poly → Geometry := fun g _ => g

/-- Claim C1: the grouped flattening pipeline is claimed to emit, for
every group, one output row per simple polygon part of the group's
union, each row carrying that single part plus one bounding box, with
the part at ordinal `i` carrying the `i`-th member's attributes.
Evaluating the embedded `flatten_polygons` on one group of two rows
holding disjoint unit squares (whose `unary_union` is their two-part
MultiPolygon, the documented value supplied for the external union)
refutes this: the run emits four rows, not two, every row carries the
whole two-part MultiPolygon as its geometry rather than a single
part, and every row carries the final part's bounding box.  The
source appends the union `polygon` instead of the normalized part
`poly` it just computed, loops over all of the union's boxes for each
part, and appends one aliased dict per box. -/
theorem flatten_polygons_emits_multipart_rows :
    flatten_polygons uunionTwoSquares gdfTwoSquares ("geometry") (some [("grp")]) =
        .ok flattenTwoSquaresOut ∧
      flattenTwoSquaresOut.length = 4 ∧
      flattenTwoSquaresOut.all
        (fun x => decide (x.2 = Geometry.multiPolygon [sqA, sqB])) = true := by
  with_unfolding_all decide

/-- Claim C2: `normalize_polygon` is claimed to return a canonical
simplified Polygon for each of its three accepted formats.  The
Polygon format does; but the source never builds a Polygon from a
coordinate list or a string: both paths hand a plain list of
coordinate tuples to `shapely.normalize`, which raises a TypeError,
so the paired-list, flat-list and string formats all raise instead of
returning a Polygon. -/
theorem normalize_polygon_nonpolygon_inputs_raise :
    ∀ simplify : Poly → Poly,
      (∃ e, normalize_polygon simplify (.listPairs [(0, 0), (1, 0), (1, 1)]) = .error e) ∧
      (∃ e, normalize_polygon simplify (.listNum [0, 0, 1, 0, 1, 1]) = .error e) ∧
      (∃ e, normalize_polygon simplify (.str ("(1 2, 3 4, 5 6)")) = .error e) ∧
      ∀ p : Poly, ∃ q, normalize_polygon simplify (.poly p) = .ok q := by
  intro simplify
  refine ⟨⟨("TypeError: one of the arguments given to normalize is of incorrect type"), rfl⟩,
    ⟨("TypeError: one of the arguments given to normalize is of incorrect type"), rfl⟩,
    ⟨("TypeError: one of the arguments given to normalize is of incorrect type"),
      by with_unfolding_all rfl⟩,
    fun p => ⟨normalizePoly (simplify p), rfl⟩⟩

/-- Claim C5: `create_tile_polygon` applies the window transform to
the four pixel corners (0,0), (w,0), (w,h), (0,h) in order, closes
the ring by repeating the first corner, and applies no simplification
or canonicalization; with the identity transform and window
(0, 0, 10, 10) the corners are exactly (0,0), (10,0), (10,10),
(0,10). -/
theorem create_tile_polygon_corners :
    (∀ (t : Affine) (w : Window),
      create_tile_polygon t w =
        ⟨[(t.a * w.col_off + t.b * w.row_off + t.c,
           t.d * w.col_off + t.e * w.row_off + t.f),
          (t.a * (w.col_off + w.width) + t.b * w.row_off + t.c,
           t.d * (w.col_off + w.width) + t.e * w.row_off + t.f),
          (t.a * (w.col_off + w.width) + t.b * (w.row_off + w.height) + t.c,
           t.d * (w.col_off + w.width) + t.e * (w.row_off + w.height) + t.f),
          (t.a * w.col_off + t.b * (w.row_off + w.height) + t.c,
           t.d * w.col_off + t.e * (w.row_off + w.height) + t.f),
          (t.a * w.col_off + t.b * w.row_off + t.c,
           t.d * w.col_off + t.e * w.row_off + t.f)], []⟩) ∧
    create_tile_polygon ⟨1, 0, 0, 0, 1, 0⟩ ⟨0, 0, 10, 10⟩ =
      ⟨[(0, 0), (10, 0), (10, 10), (0, 10), (0, 0)], []⟩ := by
  constructor
  · intro t w
    simp only [create_tile_polygon, window_transform, Affine.comp, Affine.translation,
      Affine.apply, Poly.mk.injEq, List.cons.injEq, Prod.mk.injEq, and_true]
    refine ⟨⟨by ring, by ring⟩, ⟨by ring, by ring⟩, ⟨by ring, by ring⟩,
      ⟨by ring, by ring⟩, by ring, by ring⟩
  · with_unfolding_all decide

/-- Claim C6: the coordinate-list parsing of `normalize_polygon` is
claimed to window a flat even-length list `[x0,y0,x1,y1,...]` into
the stride-two points (x0,y0), (x1,y1), ....  The source instead
windows with stride one over `range(len - 1)`: the four-element list
[1,2,3,4] yields the three overlapping pairs (1,2), (2,3), (3,4) —
not the two claimed points — and an odd-length list is windowed the
same way rather than dropping its final lone value. -/
theorem coordPairs_sliding_window :
    coordPairs [1, 2, 3, 4] = [(1, 2), (2, 3), (3, 4)] ∧
    coordPairs [1, 2, 3] = [(1, 2), (2, 3)] ∧
    ¬ coordPairs [1, 2, 3, 4] = [(1, 2), (3, 4)] := by
  with_unfolding_all decide

/-- Claim C7: on a geometry whose kind is neither Polygon nor
MultiPolygon, the decomposer `get_geom_polygons` raises a ValueError
to its caller (for either value of `flatten` and any external
coverage-union and equality), while `get_polygon_bboxes` on the same
input does not raise: it returns an empty box list and emits the
diagnostic instead. -/
theorem unknown_geometry_kind_asymmetry :
    ∀ (cu : Poly → Poly → Geometry) (peq : Poly → Poly → Bool) (g : Geometry)
      (flatten : Bool),
      g.geomType ≠ "Polygon" → g.geomType ≠ "MultiPolygon" →
      (∃ e, get_geom_polygons cu peq g flatten = .error e) ∧
      get_polygon_bboxes g = ([], ["Unknown geometry type"]) := by
  intro cu peq g flatten h1 h2
  cases g with
  | polygon p => exact absurd rfl h1
  | multiPolygon ps => exact absurd rfl h2
  | other k => exact ⟨⟨_, rfl⟩, rfl⟩

/-- Witness for `unknown_geometry_kind_asymmetry` at a Point input. -/
theorem unknown_geometry_kind_asymmetry_witness :
    (∃ e, get_geom_polygons (fun _ _ => Geometry.other ("x")) (fun _ _ => false)
        (Geometry.other ("Point")) true = .error e) ∧
    get_polygon_bboxes (Geometry.other ("Point")) = ([], ["Unknown geometry type"]) :=
  unknown_geometry_kind_asymmetry (fun _ _ => Geometry.other ("x")) (fun _ _ => false)
    (Geometry.other ("Point")) true (by with_unfolding_all decide)
    (by with_unfolding_all decide)

/-- Running the continuation after a successful step. -/
theorem ebind_ok (a : α) (f : α → Except String β) : ebind (Except.ok a) f = f a := rfl

/-- A raised exception propagates past the continuation. -/
theorem ebind_err (e : String) (f : α → Except String β) :
    ebind (Except.error e) f = Except.error e := rfl

/-- `iloc` followed by `drop` when the positional index is in range. -/
theorem ilocDrop_of_get {g : List Row} {i : Nat} {rowi : Row} (gc : String)
    (h : g.get? i = some rowi) : ilocDrop g i gc = seriesDrop rowi gc := by
  unfold ilocDrop
  rw [h]

/-- `iloc` raises an IndexError past the end of the group. -/
theorem ilocDrop_oob {g : List Row} {i : Nat} (gc : String) (h : g.length ≤ i) :
    ilocDrop g i gc = .error ("IndexError: single positional indexer is out-of-bounds") := by
  unfold ilocDrop
  rw [List.get?_eq_none.mpr h]

/-- `Series.drop` succeeds when the label is present. -/
theorem seriesDrop_ok {r : Row} {k : String} (h : rowHasKey r k = true) :
    seriesDrop r k = .ok (r.filter (fun kv => decide (kv.1 ≠ k))) := by
  unfold seriesDrop
  rw [if_pos h]

/-- When a group's union has more parts than the group has rows, the
positional walk of the parts reaches an out-of-range `iloc` and the
IndexError propagates. -/
theorem flattenMultiGo_oob (gc : String) (g : List Row) (poly : Geometry) (bbs : List Poly) :
    ∀ (ps : List Poly) (i : Nat), g.length < i + ps.length → i ≤ g.length →
      (∀ r ∈ g, rowHasKey r gc = true) →
      flattenMultiGo gc g poly bbs ps i =
        .error ("IndexError: single positional indexer is out-of-bounds") := by
  intro ps
  induction ps with
  | nil =>
    intro i h1 h2 h3
    simp only [List.length_nil] at h1
    omega
  | cons part more ih =>
    intro i h1 h2 h3
    simp only [List.length_cons] at h1
    rcases Nat.lt_or_ge i g.length with hi | hi
    · have hget : g.get? i = some (g.get ⟨i, hi⟩) := List.get?_eq_get hi
      have hmem : g.get ⟨i, hi⟩ ∈ g := List.get_mem g i hi
      have hd : ilocDrop g i gc = seriesDrop (g.get ⟨i, hi⟩) gc := ilocDrop_of_get gc hget
      have hs := seriesDrop_ok (h3 _ hmem)
      have hrec := ih (i + 1) (by omega) (by omega) h3
      simp only [flattenMultiGo, hd, hs, ebind_ok, hrec, ebind_err]
    · have h0 : ilocDrop g i gc =
          .error ("IndexError: single positional indexer is out-of-bounds") :=
        ilocDrop_oob gc hi
      simp only [flattenMultiGo, h0, ebind_err]

/-- Claim C10: `flatten_polygons` is total only when every group's
union has at most as many parts as the group has member rows.  When
the first group's union is a MultiPolygon with more parts than rows
(for instance when a single member geometry is itself a
MultiPolygon), the positional lookup `group.iloc[i]` goes out of
bounds and the run raises an IndexError instead of returning. -/
theorem flatten_polygons_iloc_out_of_bounds :
    ∀ (uunion : List Geometry → Geometry) (gdf : GDF) (geometry_column : String)
      (cols : List String) (k : List Val) (g : List Row)
      (rest : List (List Val × List Row)) (geoms : List Geometry) (parts : List Poly),
      groupbyCols cols gdf.rows = .ok ((k, g) :: rest) →
      exceptMapList (geomOfRow gdf.activeGeom) g = .ok geoms →
      uunion geoms = .multiPolygon parts →
      g.length < parts.length →
      (∀ r ∈ g, rowHasKey r geometry_column = true) →
      flatten_polygons uunion gdf geometry_column (some cols) =
        .error ("IndexError: single positional indexer is out-of-bounds") := by
  intro uunion gdf geometry_column cols k g rest geoms parts h1 h2 h3 h4 h5
  have hg : flattenGroup uunion gdf.activeGeom geometry_column g =
      .error ("IndexError: single positional indexer is out-of-bounds") := by
    unfold flattenGroup
    rw [h2, ebind_ok, h3]
    simp only [flattenGroupCore]
    exact flattenMultiGo_oob geometry_column g _ _ parts 0 (by omega) (Nat.zero_le _) h5
  simp only [flatten_polygons]
  rw [h1, ebind_ok]
  simp only [exceptMapList, hg, ebind_err]

/-- Witness for `flatten_polygons_iloc_out_of_bounds`: one row whose
geometry already has two parts makes the run raise. -/
theorem flatten_polygons_iloc_out_of_bounds_witness :
    flatten_polygons uunionMultiSq gdfMultiSq ("geometry") (some [("grp")]) =
      .error ("IndexError: single positional indexer is out-of-bounds") :=
  flatten_polygons_iloc_out_of_bounds uunionMultiSq gdfMultiSq ("geometry") [("grp")]
    [.vstr ("g")] [rowMultiSq] [] [.multiPolygon [sqA, sqB]] [sqA, sqB]
    (by with_unfolding_all rfl) (by with_unfolding_all rfl) rfl
    (by with_unfolding_all decide) (by with_unfolding_all decide)

/-- The passthrough loop raises as soon as a requested source column
is missing from the row. -/
theorem addPreserved_err (row : Row) :
    ∀ (fm : List (String × String)) (meta : Row),
      (∃ p ∈ fm, rowHasKey row p.2 = false) →
      ∃ e, addPreserved row meta fm = .error e := by
  intro fm
  induction fm with
  | nil =>
    intro meta h
    obtain ⟨p, hp, _⟩ := h
    exact absurd hp (List.not_mem_nil p)
  | cons q rest ih =>
    obtain ⟨qn, qo⟩ := q
    intro meta h
    by_cases hq : rowHasKey row qo = true
    · obtain ⟨p, hp, hk⟩ := h
      rcases List.mem_cons.mp hp with hph | hpt
      · rw [hph] at hk
        rw [hk] at hq
        exact absurd hq (by decide)
      · simp only [addPreserved, if_pos hq]
        exact ih _ ⟨p, hpt, hk⟩
    · exact ⟨("KeyError: Column " ++ qo ++ " does not exist in the source DataFrame."),
        by simp only [addPreserved, if_neg hq]⟩

/-- The passthrough loop succeeds when every requested source column
is present in the row. -/
theorem addPreserved_ok (row : Row) :
    ∀ (fm : List (String × String)) (meta : Row),
      (∀ p ∈ fm, rowHasKey row p.2 = true) →
      ∃ m, addPreserved row meta fm = .ok m := by
  intro fm
  induction fm with
  | nil => exact fun meta _ => ⟨meta, rfl⟩
  | cons q rest ih =>
    obtain ⟨qn, qo⟩ := q
    intro meta h
    have hq : rowHasKey row qo = true := h (qn, qo) (List.mem_cons_self (qn, qo) rest)
    simp only [addPreserved, if_pos hq]
    exact ih _ (fun p hp => h p (List.mem_cons_of_mem (qn, qo) hp))

/-- The duplicate-path check of `map_metadata` never fires: it
compares a stored string against a Path object. -/
theorem any_strEqPathObject (acc : List (Row × Val)) (path : String) :
    (acc.any (fun r => strEqPathObject (rowGetD r.1 ("path")) path)) = false := by
  induction acc with
  | nil => rfl
  | cons a rest ih => simp [strEqPathObject, ih]

/-- The metadata loop raises when it reaches a row that exists on disk
but is missing a requested passthrough column. -/
theorem mapMetadataLoop_err (fs : String → Option (Nat × Nat)) (pf : Row → String)
    (dir : String) (fm : List (String × String)) :
    ∀ (rows : List Row) (acc : List (Row × Val)) (r : Row), r ∈ rows →
      (fs (pf r)).isSome = true →
      (∃ p ∈ fm, rowHasKey r p.2 = false) →
      ∃ e, mapMetadataLoop fs pf dir fm rows acc = .error e := by
  intro rows
  induction rows with
  | nil =>
    intro acc r hr
    exact absurd hr (List.not_mem_nil r)
  | cons a rest ih =>
    intro acc r hr hsome hmiss
    cases hfs : fs (pf a) with
    | none =>
      rcases List.mem_cons.mp hr with hra | hrt
      · rw [hra] at hsome
        rw [hfs] at hsome
        exact absurd hsome (by decide)
      · simp only [mapMetadataLoop, hfs]
        exact ih acc r hrt hsome hmiss
    | some wh =>
      simp only [mapMetadataLoop, hfs, any_strEqPathObject, Bool.false_eq_true, if_false]
      rcases List.mem_cons.mp hr with hra | hrt
      · subst hra
        obtain ⟨e, he⟩ := addPreserved_err r fm _ hmiss
        rw [he, ebind_err]
        exact ⟨e, rfl⟩
      · cases hadd : addPreserved a _ fm with
        | error e =>
          rw [ebind_err]
          exact ⟨e, rfl⟩
        | ok m =>
          rw [ebind_ok]
          exact ih _ r hrt hsome hmiss

/-- The metadata loop returns when every row has every requested
passthrough column. -/
theorem mapMetadataLoop_ok (fs : String → Option (Nat × Nat)) (pf : Row → String)
    (dir : String) (fm : List (String × String)) :
    ∀ (rows : List Row) (acc : List (Row × Val)),
      (∀ r ∈ rows, ∀ p ∈ fm, rowHasKey r p.2 = true) →
      ∃ out, mapMetadataLoop fs pf dir fm rows acc = .ok out := by
  intro rows
  induction rows with
  | nil => exact fun acc _ => ⟨acc, rfl⟩
  | cons a rest ih =>
    intro acc h
    cases hfs : fs (pf a) with
    | none =>
      simp only [mapMetadataLoop, hfs]
      exact ih acc (fun r hr => h r (List.mem_cons_of_mem a hr))
    | some wh =>
      simp only [mapMetadataLoop, hfs, any_strEqPathObject, Bool.false_eq_true, if_false]
      obtain ⟨m, hm⟩ := addPreserved_ok a fm _ (h a (List.mem_cons_self a rest))
      rw [hm, ebind_ok]
      exact ih _ (fun r hr => h r (List.mem_cons_of_mem a hr))

/-- Claim C9: when `preserve_fields` names a column absent from a
source row that `map_metadata` processes (its image path exists; the
duplicate-path check never skips, comparing a str to a Path), the run
raises a KeyError; when every named column is present in every row,
no such error is raised. -/
theorem map_metadata_field_existence :
    (∀ (fs : String → Option (Nat × Nat)) (pf : Row → String) (dir : String)
       (gdf : List Row) (fields : PreserveFields) (r : Row),
       r ∈ gdf → (fs (pf r)).isSome = true →
       (∃ p ∈ normalizeFields fields, rowHasKey r p.2 = false) →
       ∃ e, map_metadata fs pf dir gdf fields = .error e) ∧
    (∀ (fs : String → Option (Nat × Nat)) (pf : Row → String) (dir : String)
       (gdf : List Row) (fields : PreserveFields),
       (∀ r ∈ gdf, ∀ p ∈ normalizeFields fields, rowHasKey r p.2 = true) →
       ∃ out, map_metadata fs pf dir gdf fields = .ok out) := by
  constructor
  · intro fs pf dir gdf fields r hr hsome hmiss
    exact mapMetadataLoop_err fs pf dir (normalizeFields fields) gdf [] r hr hsome hmiss
  · intro fs pf dir gdf fields h
    exact mapMetadataLoop_ok fs pf dir (normalizeFields fields) gdf [] h

/-- Witness for `map_metadata_field_existence`: requesting the `zone`
column errors on a row without it and succeeds on a row with it. -/
theorem map_metadata_field_existence_witness :
    (∃ e, map_metadata (fun _ => some (4, 5)) (fun _ => "img.tif") ("imgs")
        [[("area", Val.vnum 7)]] (.plist [.fstr ("zone")]) = .error e) ∧
    (∃ out, map_metadata (fun _ => some (4, 5)) (fun _ => "img.tif") ("imgs")
        [[("zone", Val.vstr ("z"))]] (.plist [.fstr ("zone")]) = .ok out) :=
  ⟨map_metadata_field_existence.1 (fun _ => some (4, 5)) (fun _ => "img.tif") ("imgs")
      [[("area", Val.vnum 7)]] (.plist [.fstr ("zone")]) [("area", Val.vnum 7)]
      (by with_unfolding_all decide) (by with_unfolding_all decide)
      (by with_unfolding_all decide),
   map_metadata_field_existence.2 (fun _ => some (4, 5)) (fun _ => "img.tif") ("imgs")
      [[("zone", Val.vstr ("z"))]] (.plist [.fstr ("zone")])
      (by with_unfolding_all decide)⟩

/-- Membership in the deduplication helper. -/
theorem mem_uniqueAux {α : Type} [DecidableEq α] (a : α) :
    ∀ (l seen : List α), a ∈ uniqueAux seen l ↔ (a ∈ l ∧ a ∉ seen) := by
  intro l
  induction l with
  | nil =>
    intro seen
    simp [uniqueAux]
  | cons b t ih =>
    intro seen
    by_cases hb : b ∈ seen
    · simp only [uniqueAux, if_pos hb, ih, List.mem_cons]
      constructor
      · tauto
      · rintro ⟨hab | h1, h2⟩
        · subst hab
          exact absurd hb h2
        · exact ⟨h1, h2⟩
    · by_cases hab : a = b
      · subst hab
        simp [uniqueAux, if_neg hb, hb]
      · simp only [uniqueAux, if_neg hb, List.mem_cons, ih]
        constructor
        · rintro (hec | ⟨h1, h2⟩)
          · exact absurd hec hab
          · exact ⟨Or.inr h1, fun hs => h2 (Or.inr hs)⟩
        · rintro ⟨hec | h1, h2⟩
          · exact absurd hec hab
          · exact Or.inr ⟨h1, fun hm => hm.elim hab h2⟩

/-- Deduplication keeps exactly the members of the list. -/
theorem mem_uniqueList {α : Type} [DecidableEq α] (a : α) (l : List α) :
    a ∈ uniqueList l ↔ a ∈ l := by
  unfold uniqueList
  rw [mem_uniqueAux]
  simp

/-- The deduplication helper never repeats an element. -/
theorem nodup_uniqueAux {α : Type} [DecidableEq α] :
    ∀ (l seen : List α), (uniqueAux seen l).Nodup := by
  intro l
  induction l with
  | nil =>
    intro seen
    simp [uniqueAux]
  | cons b t ih =>
    intro seen
    by_cases hb : b ∈ seen
    · simpa [uniqueAux, if_pos hb] using ih seen
    · simp only [uniqueAux, if_neg hb]
      refine List.nodup_cons.mpr ⟨?_, ih _⟩
      intro hmem
      exact ((mem_uniqueAux b t (b :: seen)).mp hmem).2 (List.mem_cons_self b seen)

/-- Deduplicated lists have no duplicates. -/
theorem nodup_uniqueList {α : Type} [DecidableEq α] (l : List α) : (uniqueList l).Nodup :=
  nodup_uniqueAux l []

/-- Concatenated mapping distributes over append. -/
theorem listJoinMap_append (f : α → List β) :
    ∀ (l1 l2 : List α), listJoinMap f (l1 ++ l2) = listJoinMap f l1 ++ listJoinMap f l2 := by
  intro l1 l2
  induction l1 with
  | nil => rfl
  | cons a t ih => simp [listJoinMap, ih]

/-- Membership in a concatenated mapping. -/
theorem mem_listJoinMap {f : α → List β} {b : β} :
    ∀ {l : List α}, b ∈ listJoinMap f l ↔ ∃ a ∈ l, b ∈ f a := by
  intro l
  induction l with
  | nil => simp [listJoinMap]
  | cons a t ih =>
    simp only [listJoinMap, List.mem_append, ih]
    constructor
    · rintro (h | ⟨x, hx, hb⟩)
      · exact ⟨a, List.mem_cons_self a t, h⟩
      · exact ⟨x, List.mem_cons_of_mem a hx, hb⟩
    · rintro ⟨x, hx, hb⟩
      rcases List.mem_cons.mp hx with rfl | hxt
      · exact Or.inl hb
      · exact Or.inr ⟨x, hxt, hb⟩

/-- Filtering commutes into a concatenated mapping. -/
theorem filter_listJoinMap (P : β → Bool) (f : α → List β) :
    ∀ l : List α, (listJoinMap f l).filter P = listJoinMap (fun a => (f a).filter P) l := by
  intro l
  induction l with
  | nil => rfl
  | cons a t ih => simp [listJoinMap, List.filter_append, ih]

/-- Concatenated mappings compose. -/
theorem listJoinMap_assoc (g : β → List γ) (f : α → List β) :
    ∀ l : List α,
      listJoinMap g (listJoinMap f l) = listJoinMap (fun a => listJoinMap g (f a)) l := by
  intro l
  induction l with
  | nil => rfl
  | cons a t ih => simp [listJoinMap, listJoinMap_append, ih]

/-- A list without duplicates that contains `x` and whose members all
equal `x` is the singleton `[x]`. -/
theorem eq_singleton_of_mem_nodup {α : Type} {l : List α} {x : α} (hn : l.Nodup)
    (hx : x ∈ l) (hall : ∀ a ∈ l, a = x) : l = [x] := by
  cases l with
  | nil => exact absurd hx (List.not_mem_nil x)
  | cons a t =>
    have ha : a = x := hall a (List.mem_cons_self a t)
    subst ha
    cases t with
    | nil => rfl
    | cons b u =>
      have hb : b = a := (hall b (List.mem_cons_of_mem a (List.mem_cons_self b u))).trans
        (hall a (List.mem_cons_self a (b :: u))).symm
      have hmem : a ∈ b :: u := by
        rw [hb]
        exact List.mem_cons_self a u
      exact absurd hmem (List.nodup_cons.mp hn).1

/-- Every row a tile contributes carries that tile's path. -/
theorem tileRows_path (its : Geometry → Poly → Bool) (intr : Geometry → Poly → Geometry)
    (gdf : List VecRecord) (q : TileFile) :
    ∀ r ∈ tileRows its intr gdf q, r.path = q.pathStr := by
  intro r hr
  unfold tileRows at hr
  by_cases hI : (gdf.filter (fun v => its v.geom (tilePolyOf q))).isEmpty
  · rw [if_pos hI] at hr
    rw [List.mem_singleton.mp hr]
  · rw [if_neg hI] at hr
    obtain ⟨v, _, rfl⟩ := List.mem_map.mp hr
    rfl

/-- Exploding a row preserves its path. -/
theorem explodeRow_path (r : MapRow) : ∀ x ∈ explodeRow r, x.path = r.path := by
  intro x hx
  obtain ⟨g, _, rfl⟩ := List.mem_map.mp hx
  rfl

/-- Every exploded row a tile contributes carries that tile's path. -/
theorem tileRowsExploded_path (its : Geometry → Poly → Bool)
    (intr : Geometry → Poly → Geometry) (gdf : List VecRecord) (q : TileFile) :
    ∀ x ∈ listJoinMap explodeRow (tileRows its intr gdf q), x.path = q.pathStr := by
  intro x hx
  obtain ⟨r, hr, hxr⟩ := mem_listJoinMap.mp hx
  exact (explodeRow_path r x hxr).trans (tileRows_path its intr gdf q r hr)

/-- Every tile contributes at least one exploded row, as long as the
clipped geometry of an intersecting record explodes to at least one
part (true of shapely: a reported intersection is non-empty). -/
theorem tileRowsExploded_exists (its : Geometry → Poly → Bool)
    (intr : Geometry → Poly → Geometry) (gdf : List VecRecord) (q : TileFile)
    (Hexp : ∀ g t, its g t = true → explodeGeom (intr g t) ≠ []) :
    ∃ x, x ∈ listJoinMap explodeRow (tileRows its intr gdf q) := by
  by_cases hI : (gdf.filter (fun v => its v.geom (tilePolyOf q))).isEmpty
  · refine ⟨⟨q.name, q.pathStr, q.width, q.height, .polygon ⟨[], []⟩⟩, ?_⟩
    apply mem_listJoinMap.mpr
    refine ⟨⟨q.name, q.pathStr, q.width, q.height, .polygon ⟨[], []⟩⟩, ?_, ?_⟩
    · unfold tileRows
      rw [if_pos hI]
      exact List.mem_singleton.mpr rfl
    · exact List.mem_singleton.mpr rfl
  · have hne : gdf.filter (fun v => its v.geom (tilePolyOf q)) ≠ [] := by
      intro h0
      rw [h0] at hI
      exact hI rfl
    obtain ⟨v, hv⟩ := List.exists_mem_of_ne_nil _ hne
    have hits : its v.geom (tilePolyOf q) = true := (List.mem_filter.mp hv).2
    obtain ⟨g0, hg0⟩ := List.exists_mem_of_ne_nil _ (Hexp v.geom (tilePolyOf q) hits)
    refine ⟨⟨q.name, q.pathStr, q.width, q.height, g0⟩, ?_⟩
    apply mem_listJoinMap.mpr
    refine ⟨⟨q.name, q.pathStr, q.width, q.height, intr v.geom (tilePolyOf q)⟩, ?_, ?_⟩
    · unfold tileRows
      rw [if_neg hI]
      exact List.mem_map.mpr ⟨v, hv, rfl⟩
    · exact List.mem_map.mpr ⟨g0, hg0, rfl⟩

/-- A tile intersecting no record contributes exactly the one
empty-geometry placeholder row. -/
theorem tileRows_no_intersection (its : Geometry → Poly → Bool)
    (intr : Geometry → Poly → Geometry) (gdf : List VecRecord) (q : TileFile)
    (h : ∀ rec ∈ gdf, its rec.geom (tilePolyOf q) = false) :
    tileRows its intr gdf q = [⟨q.name, q.pathStr, q.width, q.height, .polygon ⟨[], []⟩⟩] := by
  have h0 : gdf.filter (fun v => its v.geom (tilePolyOf q)) = [] := by
    apply List.filter_eq_nil_iff.mpr
    intro v hv
    simp [h v hv]
  unfold tileRows
  rw [h0]
  rfl

/-- Filtering a concatenated mapping down to the rows of one list
element, when the key of each element is distinct and every produced
row carries its element's key, leaves exactly that element's rows. -/
theorem joinMap_filter_single {α β κ : Type} [DecidableEq κ] (f : α → List β)
    (g : α → κ) (h : β → κ) :
    ∀ (l : List α) (p : α), p ∈ l → (l.map g).Pairwise (fun s t => s ≠ t) →
      (∀ q ∈ l, ∀ r ∈ f q, h r = g q) →
      (listJoinMap f l).filter (fun r => decide (h r = g p)) = f p := by
  intro l
  induction l with
  | nil =>
    intro p hp
    exact absurd hp (List.not_mem_nil p)
  | cons a t ih =>
    intro p hp hpw hall
    rw [List.map_cons] at hpw
    have hpw2 := List.pairwise_cons.mp hpw
    simp only [listJoinMap, List.filter_append]
    rcases List.mem_cons.mp hp with rfl | hpt
    · have h1 : (f p).filter (fun r => decide (h r = g p)) = f p := by
        apply List.filter_eq_self.mpr
        intro r hr
        rw [hall p (List.mem_cons_self p t) r hr]
        simp
      have h2 : (listJoinMap f t).filter (fun r => decide (h r = g p)) = [] := by
        apply List.filter_eq_nil_iff.mpr
        intro r hr
        obtain ⟨q, hq, hrq⟩ := mem_listJoinMap.mp hr
        have hne : g p ≠ g q := hpw2.1 (g q) (List.mem_map.mpr ⟨q, hq, rfl⟩)
        rw [hall q (List.mem_cons_of_mem p hq) r hrq]
        simp
        exact fun hc => hne hc.symm
      rw [h1, h2, List.append_nil]
    · have hgap : g a ≠ g p := hpw2.1 (g p) (List.mem_map.mpr ⟨p, hpt, rfl⟩)
      have h1 : (f a).filter (fun r => decide (h r = g p)) = [] := by
        apply List.filter_eq_nil_iff.mpr
        intro r hr
        rw [hall a (List.mem_cons_self a t) r hr]
        simp
        exact fun hc => hgap hc
      rw [h1, List.nil_append]
      exact ih p hpt hpw2.2 (fun q hq => hall q (List.mem_cons_of_mem a hq))

/-- Claim C4: every raster tile surviving the filename pre-filter is
referenced by at least one output row of the spatial mapper, and a
surviving tile intersecting no vector geometry contributes exactly
one row, whose geometry is the empty-polygon placeholder.  The tile
paths are pairwise distinct (they come from a directory enumeration)
and a reported intersection explodes to at least one part. -/
theorem map_geometry_to_geotiffs_complete :
    ∀ (intersects : Geometry → Poly → Bool) (inter : Geometry → Poly → Geometry)
      (gdf : List VecRecord) (files : List TileFile),
      (files.map (fun p => p.pathStr)).Pairwise (fun s t => s ≠ t) →
      (∀ g t, intersects g t = true → explodeGeom (inter g t) ≠ []) →
      ∀ p ∈ files,
        compare_stem (dropExt p.name)
            ((uniqueList (gdf.map (fun r => r.filename))).map dropExt) = true →
        (∃ r ∈ map_geometry_to_geotiffs intersects inter gdf files, r.path = p.pathStr) ∧
        ((∀ rec ∈ gdf, intersects rec.geom (tilePolyOf p) = false) →
          (map_geometry_to_geotiffs intersects inter gdf files).filter
              (fun r => decide (r.path = p.pathStr)) =
            [⟨p.name, p.pathStr, p.width, p.height, .polygon ⟨[], []⟩⟩]) := by
  intro its intr gdf files hpw Hexp p hp hcs
  have himg : p ∈ files.filter (fun q => compare_stem (dropExt q.name)
      ((uniqueList (gdf.map (fun r => r.filename))).map dropExt)) :=
    List.mem_filter.mpr ⟨hp, hcs⟩
  have hout : map_geometry_to_geotiffs its intr gdf files =
      uniqueList (listJoinMap (fun q => listJoinMap explodeRow (tileRows its intr gdf q))
        (files.filter (fun q => compare_stem (dropExt q.name)
          ((uniqueList (gdf.map (fun r => r.filename))).map dropExt)))) := by
    simp only [map_geometry_to_geotiffs]
    rw [listJoinMap_assoc]
  constructor
  · obtain ⟨x, hx⟩ := tileRowsExploded_exists its intr gdf p Hexp
    refine ⟨x, ?_, tileRowsExploded_path its intr gdf p x hx⟩
    rw [hout]
    exact (mem_uniqueList _ _).mpr (mem_listJoinMap.mpr ⟨p, himg, hx⟩)
  · intro hnone
    have hpw2 : ((files.filter (fun q => compare_stem (dropExt q.name)
        ((uniqueList (gdf.map (fun r => r.filename))).map dropExt))).map
          (fun q => q.pathStr)).Pairwise (fun s t => s ≠ t) :=
      List.Pairwise.sublist ((List.filter_sublist files).map _) hpw
    have hsingle : (listJoinMap (fun q => listJoinMap explodeRow (tileRows its intr gdf q))
        (files.filter (fun q => compare_stem (dropExt q.name)
          ((uniqueList (gdf.map (fun r => r.filename))).map dropExt)))).filter
          (fun r => decide (r.path = p.pathStr)) =
        listJoinMap explodeRow (tileRows its intr gdf p) :=
      joinMap_filter_single
        (fun q => listJoinMap explodeRow (tileRows its intr gdf q))
        (fun q => q.pathStr) (fun r => r.path)
        (files.filter (fun q => compare_stem (dropExt q.name)
          ((uniqueList (gdf.map (fun r => r.filename))).map dropExt)))
        p himg hpw2 (fun q _ => tileRowsExploded_path its intr gdf q)
    have hrows : listJoinMap explodeRow (tileRows its intr gdf p) =
        [⟨p.name, p.pathStr, p.width, p.height, .polygon ⟨[], []⟩⟩] := by
      rw [tileRows_no_intersection its intr gdf p hnone]
      rfl
    rw [hout]
    apply eq_singleton_of_mem_nodup
    · exact List.Nodup.filter _ (nodup_uniqueList _)
    · apply List.mem_filter.mpr
      have hm : (⟨p.name, p.pathStr, p.width, p.height, .polygon ⟨[], []⟩⟩ : MapRow) ∈
          listJoinMap explodeRow (tileRows its intr gdf p) := by
        rw [hrows]
        exact List.mem_singleton.mpr rfl
      refine ⟨(mem_uniqueList _ _).mpr (mem_listJoinMap.mpr ⟨p, himg, hm⟩), ?_⟩
      simp
    · intro a ha
      have h1 := List.mem_filter.mp ha
      have h2 : a ∈ (listJoinMap (fun q => listJoinMap explodeRow (tileRows its intr gdf q))
          (files.filter (fun q => compare_stem (dropExt q.name)
            ((uniqueList (gdf.map (fun r => r.filename))).map dropExt)))).filter
            (fun r => decide (r.path = p.pathStr)) :=
        List.mem_filter.mpr ⟨(mem_uniqueList _ _).mp h1.1, h1.2⟩
      rw [hsingle, hrows] at h2
      exact List.mem_singleton.mp h2

/-- Witness for `map_geometry_to_geotiffs_complete`: one surviving
tile and no intersections yields exactly the placeholder row. -/
theorem map_geometry_to_geotiffs_complete_witness :
    (∃ r ∈ map_geometry_to_geotiffs neverIntersects clipIdentity [recOfSqA] [tileOfSqA],
        r.path = tileOfSqA.pathStr) ∧
    (map_geometry_to_geotiffs neverIntersects clipIdentity [recOfSqA] [tileOfSqA]).filter
        (fun r => decide (r.path = tileOfSqA.pathStr)) =
      [⟨tileOfSqA.name, tileOfSqA.pathStr, tileOfSqA.width, tileOfSqA.height,
        .polygon ⟨[], []⟩⟩] := by
  have H := map_geometry_to_geotiffs_complete neverIntersects clipIdentity [recOfSqA]
    [tileOfSqA] (by with_unfolding_all decide)
    (fun g t h => Bool.noConfusion h) tileOfSqA (List.mem_singleton.mpr rfl)
    (by with_unfolding_all decide)
  exact ⟨H.1, H.2 (fun rec hrec => rfl)⟩

end FTCNN
